import Mathlib

/-!
Verification of the DUID decoder (`src/decode/dec.py`).

The script decodes a DHCP Unique Identifier: a hex string (optionally
colon-separated) is normalized to bytes, the first two bytes are read as a
big-endian type discriminant, and one of four variant layouts (LLT, EN, LL,
UUID) or an unknown-type fallback is decoded.

Embedding conventions:
* a Python `bytes` value is `List (Fin 256)`;
* a Python `str` is a list of code points, `List Nat` (the helper `codes`
  turns a Lean string literal into that form);
* the script's prints are modelled as the structured fields of `DuidRecord`;
* stream reads over `io.BytesIO` are explicit position passing, and
  `struct.unpack` on a short read is the `structError` outcome;
* the `datetime` arithmetic is modelled over the proleptic Gregorian
  calendar in whole seconds since 0001-01-01T00:00:00 (UTC), mirroring
  CPython's ordinal computation and `datetime.max` bound.
-/

namespace DuidDec

/-- Bytes of the input buffer, as in Python `bytes`. -/
abbrev Byte := Fin 256

/-- Code points of a Lean string literal, used to write expected Python
strings concisely. -/
def codes (s : String) : List Nat :=
  s.data.map (fun c => c.toNat)

/-- ASCII whitespace recognizer used by `bytes.fromhex` (`Py_ISSPACE`):
space, tab, newline, vertical tab, form feed, carriage return. -/
def isSpaceCode (c : Nat) : Bool :=
  c = 32 || (9 ≤ c && c ≤ 13)

/-- Hexadecimal digit recognizer over code points: `0-9`, `a-f`, `A-F`. -/
def isHexCode (c : Nat) : Bool :=
  (48 ≤ c && c ≤ 57) || (97 ≤ c && c ≤ 102) || (65 ≤ c && c ≤ 70)

/-- Value of a hexadecimal digit code point (0 for non-digits, which the
caller guards against). -/
def hexValCode (c : Nat) : Fin 16 :=
  if h : 48 ≤ c ∧ c ≤ 57 then ⟨c - 48, by omega⟩
  else if h : 97 ≤ c ∧ c ≤ 102 then ⟨c - 97 + 10, by omega⟩
  else if h : 65 ≤ c ∧ c ≤ 70 then ⟨c - 65 + 10, by omega⟩
  else ⟨0, by omega⟩

/-- Byte built from a high and a low hex-digit value. -/
def pairByte (a b : Fin 16) : Byte :=
  ⟨a.val * 16 + b.val, by
    have ha := a.isLt
    have hb := b.isLt
    omega⟩

/-- Python `bytes.fromhex`: ASCII whitespace may precede each two-digit
pair (and trail the string); each pair is two adjacent hex digits; anything
else is a `ValueError` (`none`). -/
def fromhexCodes : List Nat → Option (List Byte)
  | [] => some []
  | c :: rest =>
    if isSpaceCode c then fromhexCodes rest
    else if isHexCode c then
      match rest with
      | c2 :: rest2 =>
        if isHexCode c2 then
          (fromhexCodes rest2).map (fun bs => pairByte (hexValCode c) (hexValCode c2) :: bs)
        else none
      | [] => none
    else none

/-- Recognizer for the strings `bytes.fromhex` accepts: a sequence of
two-hex-digit pairs, each pair optionally preceded (and the whole string
optionally followed) by ASCII whitespace. -/
def hexGrammar : List Nat → Bool
  | [] => true
  | c :: rest =>
    if isSpaceCode c then hexGrammar rest
    else if isHexCode c then
      match rest with
      | c2 :: rest2 => isHexCode c2 && hexGrammar rest2
      | [] => false
    else false

/-- The script's `duid_hex_string.replace(':', '')`. -/
def stripColons (s : List Nat) : List Nat :=
  s.filter (fun c => c != 58)

/-- The input normalizer: `bytes.fromhex(duid_hex_string.replace(':', ''))`,
with `none` standing for the `ValueError` → "Invalid hex string format"
exit. -/
def hexToBytes (s : List Nat) : Option (List Byte) :=
  fromhexCodes (stripColons s)

/-- Lowercase hex digit character code for a value below 16, as produced by
Python's `bytes.hex`. -/
def hexDigitCode (v : Nat) : Nat :=
  if v < 10 then 48 + v else 87 + v

/-- Two lowercase hex character codes of one byte. -/
def byteHexCodes (b : Byte) : List Nat :=
  [hexDigitCode (b.val / 16), hexDigitCode (b.val % 16)]

/-- Python `bytes.hex()`: lowercase hex string of a byte sequence. -/
def bytesHexCodes (bs : List Byte) : List Nat :=
  (bs.map byteHexCodes).flatten

/-- Slices `s[i:i+2]` for `i in range(0, len(s), 2)`: successive two-element
chunks, with a final one-element chunk when the length is odd. -/
def chunk2 {α : Type} : List α → List (List α)
  | a :: b :: rest => [a, b] :: chunk2 rest
  | [a] => [[a]]
  | [] => []

/-- Python `":".join(parts)` over code-point strings. -/
def joinColon : List (List Nat) → List Nat
  | [] => []
  | [x] => x
  | x :: xs => x ++ 58 :: joinColon xs

/-- Case normalization of a hex character code (`str.lower` restricted to
`A-F`), used to state the round-trip property. -/
def lowerCode (c : Nat) : Nat :=
  if 65 ≤ c ∧ c ≤ 70 then c + 32 else c

/-- Leap-year predicate of the proleptic Gregorian calendar
(CPython `datetime._is_leap`). -/
def isLeapYear (y : Nat) : Bool :=
  y % 4 = 0 && (y % 100 ≠ 0 || y % 400 = 0)

/-- Number of days before January 1 of year `y`
(CPython `datetime._days_before_year`). -/
def daysBeforeYear (y : Nat) : Nat :=
  (y - 1) * 365 + (y - 1) / 4 - (y - 1) / 100 + (y - 1) / 400

/-- Cumulative day counts before each month in a non-leap year. -/
def daysInMonthsBefore (m : Nat) : Nat :=
  [0, 31, 59, 90, 120, 151, 181, 212, 243, 273, 304, 334].getD (m - 1) 0

/-- Number of days in year `y` before the first of month `m`
(CPython `datetime._days_before_month`). -/
def daysBeforeMonth (y m : Nat) : Nat :=
  daysInMonthsBefore m + (if 2 < m ∧ isLeapYear y then 1 else 0)

/-- Proleptic Gregorian ordinal of a date (`date.toordinal()`;
0001-01-01 has ordinal 1). -/
def dateOrdinal (y m d : Nat) : Nat :=
  daysBeforeYear y + daysBeforeMonth y m + d

/-- Whole seconds from 0001-01-01T00:00:00 to the given UTC datetime. -/
def dateTimeSeconds (y m d hh mi ss : Nat) : Nat :=
  (dateOrdinal y m d - 1) * 86400 + hh * 3600 + mi * 60 + ss

/-- The DUID epoch `datetime.datetime(2000, 1, 1, 0, 0, 0, tzinfo=utc)`,
i.e. 2000-01-01T00:00:00Z, in seconds since 0001-01-01. -/
def duidEpochSeconds : Nat :=
  dateTimeSeconds 2000 1 1 0 0 0

/-- Last whole second representable by `datetime.datetime`
(9999-12-31T23:59:59; `datetime.max` adds only microseconds). -/
def datetimeMaxSeconds : Nat :=
  dateTimeSeconds 9999 12 31 23 59 59

/-- Whether `duid_epoch + timedelta(seconds=t)` overflows the representable
`datetime` range, which CPython reports as `OverflowError`. -/
def dtOverflow (t : Nat) : Bool :=
  decide (datetimeMaxSeconds < duidEpochSeconds + t)

/-- The failure outcomes of the script: the pre-dispatch length guard, the
`struct.error` handler, each `raise ValueError` site, keyed by its message. -/
inductive DecodeError where
  /-- "DUID is too short (n bytes)": the `len(duid_bytes) < 2` guard. -/
  | tooShort (actual : Nat)
  /-- "Could not unpack data": `struct.unpack` received too few bytes. -/
  | structError
  /-- "DUID-LLT is too short for fixed fields". -/
  | lltTooShort
  /-- "Calculated negative address length for DUID-LLT". -/
  | lltNegLen
  /-- "DUID-EN is too short for fixed fields". -/
  | enTooShort
  /-- "Calculated negative identifier length for DUID-EN". -/
  | enNegLen
  /-- "DUID-LL is too short for fixed fields". -/
  | llTooShort
  /-- "Calculated negative address length for DUID-LL". -/
  | llNegLen
  /-- "DUID-UUID must be exactly `expected` bytes long, found `actual`". -/
  | uuidLenMismatch (expected actual : Nat)
deriving DecidableEq, Repr

/-- The structured content the script prints for one successfully decoded
DUID, one constructor per dispatch branch. -/
inductive DuidRecord where
  /-- Type 1: hardware type, raw time offset, calculated timestamp
  (`none` when the datetime addition overflowed and only the warning is
  printed), and the rendered link-layer address line. -/
  | llt (hwType timeVal : Nat) (timestamp : Option Nat) (lla : List Nat)
  /-- Type 2: enterprise number and the identifier's hex rendering. -/
  | en (enterpriseNum : Nat) (identifier : List Nat)
  /-- Type 3: hardware type and the rendered link-layer address line. -/
  | ll (hwType : Nat) (lla : List Nat)
  /-- Type 4: the canonical hyphenated UUID rendering. -/
  | duidUuid (render : List Nat)
  /-- Any other type code: the remaining bytes, kept verbatim. -/
  | unknownType (typeCode : Nat) (remaining : List Byte)
deriving DecidableEq, Repr

/-- Read of `struct.unpack('!H', data.read(2))` at stream position `pos`:
big-endian 16-bit value and the new position, or `struct.error`. -/
def readU16 (bs : List Byte) (pos : Nat) : Except DecodeError (Nat × Nat) :=
  match (bs.drop pos).take 2 with
  | [a, b] => .ok (a.val * 256 + b.val, pos + 2)
  | _ => .error .structError

/-- Read of `struct.unpack('!I', data.read(4))` at stream position `pos`:
big-endian 32-bit value and the new position, or `struct.error`. -/
def readU32 (bs : List Byte) (pos : Nat) : Except DecodeError (Nat × Nat) :=
  match (bs.drop pos).take 4 with
  | [a, b, c, d] => .ok (((a.val * 256 + b.val) * 256 + c.val) * 256 + d.val, pos + 4)
  | _ => .error .structError

/-- `data.read(n)` on a `BytesIO`: up to `n` bytes from position `pos`, and
the advanced position. -/
def readBytes (bs : List Byte) (pos n : Nat) : List Byte × Nat :=
  ((bs.drop pos).take n, pos + min n (bs.length - pos))

/-- Rendering of the `Link-layer Address` line shared by the LLT and LL
branches: both join the hex string into colon-separated two-character
slices; hardware type 1 with a 6-byte address is printed bare, anything
else gets the " (Hex)" tag. -/
def renderLla (hwTypeCode addressLen : Nat) (llaBytes : List Byte) : List Nat :=
  let lla_hex := bytesHexCodes llaBytes
  if hwTypeCode = 1 ∧ addressLen = 6 then joinColon (chunk2 lla_hex)
  else joinColon (chunk2 lla_hex) ++ codes " (Hex)"

/-- Canonical hyphenated rendering of `str(uuid.UUID(bytes=uuid_bytes))`:
the 32 lowercase hex characters split 8-4-4-4-12 by hyphens. -/
def uuidRender (uuidBytes : List Byte) : List Nat :=
  let h := bytesHexCodes uuidBytes
  h.take 8 ++ 45 :: ((h.drop 8).take 4 ++ 45 :: ((h.drop 12).take 4 ++ 45 :: ((h.drop 16).take 4 ++ 45 :: h.drop 20)))

/-- The decoding block of the script over an already-normalized byte
sequence: the pre-dispatch length guard, the discriminant read, the
four-way dispatch plus unknown-type fallback. On success it returns the
record and the final stream position (`duid_bytes` consumed so far), so
the script's trailing "bytes remaining" check is `bs.length - pos`. -/
def decodeDuid (bs : List Byte) : Except DecodeError (DuidRecord × Nat) :=
  if bs.length < 2 then .error (.tooShort bs.length)
  else
    let total := bs.length
    match readU16 bs 0 with
    | .error e => .error e
    | .ok (duidTypeCode, pos0) =>
      if duidTypeCode = 1 then
        if total < 8 then .error .lltTooShort
        else
          match readU16 bs pos0 with
          | .error e => .error e
          | .ok (hwTypeCode, pos1) =>
            match readU32 bs pos1 with
            | .error e => .error e
            | .ok (timeVal, pos2) =>
              let timestamp := if dtOverflow timeVal then none
                else some (duidEpochSeconds + timeVal)
              let addressLen : Int := (total : Int) - 8
              if addressLen < 0 then .error .lltNegLen
              else
                let (llaBytes, pos3) := readBytes bs pos2 addressLen.toNat
                .ok (.llt hwTypeCode timeVal timestamp
                      (renderLla hwTypeCode addressLen.toNat llaBytes), pos3)
      else if duidTypeCode = 2 then
        if total < 6 then .error .enTooShort
        else
          match readU32 bs pos0 with
          | .error e => .error e
          | .ok (enterpriseNum, pos1) =>
            let identifierLen : Int := (total : Int) - 6
            if identifierLen < 0 then .error .enNegLen
            else
              let (identifierBytes, pos2) := readBytes bs pos1 identifierLen.toNat
              .ok (.en enterpriseNum (bytesHexCodes identifierBytes), pos2)
      else if duidTypeCode = 3 then
        if total < 4 then .error .llTooShort
        else
          match readU16 bs pos0 with
          | .error e => .error e
          | .ok (hwTypeCode, pos1) =>
            let addressLen : Int := (total : Int) - 4
            if addressLen < 0 then .error .llNegLen
            else
              let (llaBytes, pos2) := readBytes bs pos1 addressLen.toNat
              .ok (.ll hwTypeCode (renderLla hwTypeCode addressLen.toNat llaBytes), pos2)
      else if duidTypeCode = 4 then
        if total ≠ 18 then .error (.uuidLenMismatch 18 total)
        else
          let (uuidBytes, pos1) := readBytes bs pos0 16
          .ok (.duidUuid (uuidRender uuidBytes), pos1)
      else
        let (remaining, pos1) := readBytes bs pos0 (total - pos0)
        .ok (.unknownType duidTypeCode remaining, pos1)

/-- Whether a decode outcome is one of the defensive negative-trailing-
length errors (`address_len < 0` in LLT or LL, `identifier_len < 0` in
EN). -/
def isNegLenError : Except DecodeError (DuidRecord × Nat) → Bool
  | .error .lltNegLen => true
  | .error .enNegLen => true
  | .error .llNegLen => true
  | _ => false

/-! ### Helper lemmas: destructuring byte sequences of known minimum length -/

theorem len2_cons {α : Type} (l : List α) (h : 2 ≤ l.length) :
    ∃ a b t, l = a :: b :: t := by
  rcases l with _ | ⟨a, l⟩
  · simp at h
  rcases l with _ | ⟨b, l⟩
  · simp at h
  exact ⟨a, b, l, rfl⟩

theorem len4_cons {α : Type} (l : List α) (h : 4 ≤ l.length) :
    ∃ a b c d t, l = a :: b :: c :: d :: t := by
  obtain ⟨a, b, l, rfl⟩ := len2_cons l (by omega)
  obtain ⟨c, d, t, rfl⟩ := len2_cons l (by simp at h; omega)
  exact ⟨a, b, c, d, t, rfl⟩

theorem len6_cons {α : Type} (l : List α) (h : 6 ≤ l.length) :
    ∃ a b c d e f t, l = a :: b :: c :: d :: e :: f :: t := by
  obtain ⟨a, b, l, rfl⟩ := len2_cons l (by omega)
  obtain ⟨c, d, e, f, t, rfl⟩ := len4_cons l (by simp at h; omega)
  exact ⟨a, b, c, d, e, f, t, rfl⟩

/-! ### Helper lemmas: the value of the decoder on each branch -/

theorem decodeDuid_too_short (bs : List Byte) (h : bs.length < 2) :
    decodeDuid bs = .error (.tooShort bs.length) := by
  unfold decodeDuid
  rw [if_pos h]

theorem decodeDuid_cons_llt (b0 b1 h0 h1 t0 t1 t2 t3 : Byte) (rest : List Byte)
    (ht : b0.val * 256 + b1.val = 1) :
    decodeDuid (b0 :: b1 :: h0 :: h1 :: t0 :: t1 :: t2 :: t3 :: rest) =
      .ok (.llt (h0.val * 256 + h1.val)
            (((t0.val * 256 + t1.val) * 256 + t2.val) * 256 + t3.val)
            (if dtOverflow (((t0.val * 256 + t1.val) * 256 + t2.val) * 256 + t3.val) then none
             else some (duidEpochSeconds + (((t0.val * 256 + t1.val) * 256 + t2.val) * 256 + t3.val)))
            (renderLla (h0.val * 256 + h1.val) rest.length rest),
           8 + rest.length) := by
  simp [decodeDuid, readU16, readU32, readBytes, ht]
  have e1 : ((rest.length : Int) + 1 + 1 + 1 + 1 + 1 + 1 + 1 + 1 - 8).toNat = rest.length := by
    omega
  rw [if_neg (by omega), if_neg (by omega), if_neg (by omega), e1, List.take_length]
  simp

theorem decodeDuid_cons_llt_short (b0 b1 : Byte) (rest : List Byte)
    (ht : b0.val * 256 + b1.val = 1) (h : (b0 :: b1 :: rest).length < 8) :
    decodeDuid (b0 :: b1 :: rest) = .error .lltTooShort := by
  simp at h
  simp [decodeDuid, readU16, ht]
  rw [if_neg (by omega), if_pos (by omega)]

theorem decodeDuid_cons_en (b0 b1 e0 e1 e2 e3 : Byte) (rest : List Byte)
    (ht : b0.val * 256 + b1.val = 2) :
    decodeDuid (b0 :: b1 :: e0 :: e1 :: e2 :: e3 :: rest) =
      .ok (.en (((e0.val * 256 + e1.val) * 256 + e2.val) * 256 + e3.val)
            (bytesHexCodes rest),
           6 + rest.length) := by
  simp [decodeDuid, readU16, readU32, readBytes, ht]
  have e1 : ((rest.length : Int) + 1 + 1 + 1 + 1 + 1 + 1 - 6).toNat = rest.length := by
    omega
  rw [if_neg (by omega), if_neg (by omega), if_neg (by omega), e1, List.take_length]
  simp

theorem decodeDuid_cons_en_short (b0 b1 : Byte) (rest : List Byte)
    (ht : b0.val * 256 + b1.val = 2) (h : (b0 :: b1 :: rest).length < 6) :
    decodeDuid (b0 :: b1 :: rest) = .error .enTooShort := by
  simp at h
  simp [decodeDuid, readU16, ht]
  rw [if_neg (by omega), if_pos (by omega)]

theorem decodeDuid_cons_ll (b0 b1 h0 h1 : Byte) (rest : List Byte)
    (ht : b0.val * 256 + b1.val = 3) :
    decodeDuid (b0 :: b1 :: h0 :: h1 :: rest) =
      .ok (.ll (h0.val * 256 + h1.val)
            (renderLla (h0.val * 256 + h1.val) rest.length rest),
           4 + rest.length) := by
  simp [decodeDuid, readU16, readBytes, ht]
  have e1 : ((rest.length : Int) + 1 + 1 + 1 + 1 - 4).toNat = rest.length := by
    omega
  rw [if_neg (by omega), if_neg (by omega), if_neg (by omega), e1, List.take_length]
  simp

theorem decodeDuid_cons_ll_short (b0 b1 : Byte) (rest : List Byte)
    (ht : b0.val * 256 + b1.val = 3) (h : (b0 :: b1 :: rest).length < 4) :
    decodeDuid (b0 :: b1 :: rest) = .error .llTooShort := by
  simp at h
  simp [decodeDuid, readU16, ht]
  rw [if_neg (by omega), if_pos (by omega)]

theorem decodeDuid_cons_uuid (b0 b1 : Byte) (rest : List Byte)
    (ht : b0.val * 256 + b1.val = 4) (h : rest.length = 16) :
    decodeDuid (b0 :: b1 :: rest) =
      .ok (.duidUuid (uuidRender rest), 18) := by
  simp [decodeDuid, readU16, readBytes, ht, h]
  rw [List.take_of_length_le (by omega)]

theorem decodeDuid_cons_uuid_bad (b0 b1 : Byte) (rest : List Byte)
    (ht : b0.val * 256 + b1.val = 4) (h : (b0 :: b1 :: rest).length ≠ 18) :
    decodeDuid (b0 :: b1 :: rest) =
      .error (.uuidLenMismatch 18 (b0 :: b1 :: rest).length) := by
  simp at h
  simp [decodeDuid, readU16, ht]
  rw [if_neg (by omega), if_neg (by omega)]

theorem decodeDuid_cons_unknown (b0 b1 : Byte) (rest : List Byte)
    (h1 : b0.val * 256 + b1.val ≠ 1) (h2 : b0.val * 256 + b1.val ≠ 2)
    (h3 : b0.val * 256 + b1.val ≠ 3) (h4 : b0.val * 256 + b1.val ≠ 4) :
    decodeDuid (b0 :: b1 :: rest) =
      .ok (.unknownType (b0.val * 256 + b1.val) rest, 2 + rest.length) := by
  simp [decodeDuid, readU16, readBytes, h1, h2, h3, h4]

/-! ### Helper lemmas: inversion of successful decodes -/

theorem decodeDuid_ok_length (bs : List Byte) (r : DuidRecord) (c : Nat)
    (h : decodeDuid bs = .ok (r, c)) : c = bs.length := by
  by_cases hshort : bs.length < 2
  · rw [decodeDuid_too_short bs hshort] at h
    exact absurd h (by simp)
  push_neg at hshort
  obtain ⟨b0, b1, rest, rfl⟩ := len2_cons bs hshort
  by_cases ht1 : b0.val * 256 + b1.val = 1
  · by_cases hlen : (b0 :: b1 :: rest).length < 8
    · rw [decodeDuid_cons_llt_short b0 b1 rest ht1 hlen] at h
      exact absurd h (by simp)
    · push_neg at hlen
      obtain ⟨x0, x1, x2, x3, x4, x5, tail, rfl⟩ := len6_cons rest (by simp at hlen; omega)
      rw [decodeDuid_cons_llt b0 b1 x0 x1 x2 x3 x4 x5 tail ht1] at h
      simp at h
      simp [← h.2]
      omega
  by_cases ht2 : b0.val * 256 + b1.val = 2
  · by_cases hlen : (b0 :: b1 :: rest).length < 6
    · rw [decodeDuid_cons_en_short b0 b1 rest ht2 hlen] at h
      exact absurd h (by simp)
    · push_neg at hlen
      obtain ⟨x0, x1, x2, x3, tail, rfl⟩ := len4_cons rest (by simp at hlen; omega)
      rw [decodeDuid_cons_en b0 b1 x0 x1 x2 x3 tail ht2] at h
      simp at h
      simp [← h.2]
      omega
  by_cases ht3 : b0.val * 256 + b1.val = 3
  · by_cases hlen : (b0 :: b1 :: rest).length < 4
    · rw [decodeDuid_cons_ll_short b0 b1 rest ht3 hlen] at h
      exact absurd h (by simp)
    · push_neg at hlen
      obtain ⟨x0, x1, tail, rfl⟩ := len2_cons rest (by simp at hlen; omega)
      rw [decodeDuid_cons_ll b0 b1 x0 x1 tail ht3] at h
      simp at h
      simp [← h.2]
      omega
  by_cases ht4 : b0.val * 256 + b1.val = 4
  · by_cases h16 : rest.length = 16
    · rw [decodeDuid_cons_uuid b0 b1 rest ht4 h16] at h
      simp at h
      simp [← h.2, h16]
    · rw [decodeDuid_cons_uuid_bad b0 b1 rest ht4 (by simp; omega)] at h
      exact absurd h (by simp)
  · rw [decodeDuid_cons_unknown b0 b1 rest ht1 ht2 ht3 ht4] at h
    simp at h
    simp [← h.2]
    omega

theorem decodeDuid_llt_inv (bs : List Byte) (hw tv : Nat) (ts : Option Nat)
    (lla : List Nat) (c : Nat)
    (h : decodeDuid bs = .ok (.llt hw tv ts lla, c)) :
    8 ≤ bs.length ∧ tv < 4294967296 ∧
    ts = (if dtOverflow tv then none else some (duidEpochSeconds + tv)) ∧
    lla = renderLla hw (bs.length - 8) (bs.drop 8) := by
  by_cases hshort : bs.length < 2
  · rw [decodeDuid_too_short bs hshort] at h
    exact absurd h (by simp)
  push_neg at hshort
  obtain ⟨b0, b1, rest, rfl⟩ := len2_cons bs hshort
  by_cases ht1 : b0.val * 256 + b1.val = 1
  · by_cases hlen : (b0 :: b1 :: rest).length < 8
    · rw [decodeDuid_cons_llt_short b0 b1 rest ht1 hlen] at h
      exact absurd h (by simp)
    · push_neg at hlen
      obtain ⟨x0, x1, x2, x3, x4, x5, tail, rfl⟩ := len6_cons rest (by simp at hlen; omega)
      rw [decodeDuid_cons_llt b0 b1 x0 x1 x2 x3 x4 x5 tail ht1] at h
      simp at h
      obtain ⟨⟨hA, hB, hC, hD⟩, hn⟩ := h
      subst hA
      subst hB
      refine ⟨by simp, ?_, hC.symm, ?_⟩
      · have i0 := x2.isLt
        have i1 := x3.isLt
        have i2 := x4.isLt
        have i3 := x5.isLt
        omega
      · rw [← hD]
        simp
  by_cases ht2 : b0.val * 256 + b1.val = 2
  · by_cases hlen : (b0 :: b1 :: rest).length < 6
    · rw [decodeDuid_cons_en_short b0 b1 rest ht2 hlen] at h
      exact absurd h (by simp)
    · push_neg at hlen
      obtain ⟨x0, x1, x2, x3, tail, rfl⟩ := len4_cons rest (by simp at hlen; omega)
      rw [decodeDuid_cons_en b0 b1 x0 x1 x2 x3 tail ht2] at h
      simp at h
  by_cases ht3 : b0.val * 256 + b1.val = 3
  · by_cases hlen : (b0 :: b1 :: rest).length < 4
    · rw [decodeDuid_cons_ll_short b0 b1 rest ht3 hlen] at h
      exact absurd h (by simp)
    · push_neg at hlen
      obtain ⟨x0, x1, tail, rfl⟩ := len2_cons rest (by simp at hlen; omega)
      rw [decodeDuid_cons_ll b0 b1 x0 x1 tail ht3] at h
      simp at h
  by_cases ht4 : b0.val * 256 + b1.val = 4
  · by_cases h16 : rest.length = 16
    · rw [decodeDuid_cons_uuid b0 b1 rest ht4 h16] at h
      simp at h
    · rw [decodeDuid_cons_uuid_bad b0 b1 rest ht4 (by simp; omega)] at h
      exact absurd h (by simp)
  · rw [decodeDuid_cons_unknown b0 b1 rest ht1 ht2 ht3 ht4] at h
    simp at h

theorem decodeDuid_ll_inv (bs : List Byte) (hw : Nat) (lla : List Nat) (c : Nat)
    (h : decodeDuid bs = .ok (.ll hw lla, c)) :
    4 ≤ bs.length ∧ lla = renderLla hw (bs.length - 4) (bs.drop 4) := by
  by_cases hshort : bs.length < 2
  · rw [decodeDuid_too_short bs hshort] at h
    exact absurd h (by simp)
  push_neg at hshort
  obtain ⟨b0, b1, rest, rfl⟩ := len2_cons bs hshort
  by_cases ht1 : b0.val * 256 + b1.val = 1
  · by_cases hlen : (b0 :: b1 :: rest).length < 8
    · rw [decodeDuid_cons_llt_short b0 b1 rest ht1 hlen] at h
      exact absurd h (by simp)
    · push_neg at hlen
      obtain ⟨x0, x1, x2, x3, x4, x5, tail, rfl⟩ := len6_cons rest (by simp at hlen; omega)
      rw [decodeDuid_cons_llt b0 b1 x0 x1 x2 x3 x4 x5 tail ht1] at h
      simp at h
  by_cases ht2 : b0.val * 256 + b1.val = 2
  · by_cases hlen : (b0 :: b1 :: rest).length < 6
    · rw [decodeDuid_cons_en_short b0 b1 rest ht2 hlen] at h
      exact absurd h (by simp)
    · push_neg at hlen
      obtain ⟨x0, x1, x2, x3, tail, rfl⟩ := len4_cons rest (by simp at hlen; omega)
      rw [decodeDuid_cons_en b0 b1 x0 x1 x2 x3 tail ht2] at h
      simp at h
  by_cases ht3 : b0.val * 256 + b1.val = 3
  · by_cases hlen : (b0 :: b1 :: rest).length < 4
    · rw [decodeDuid_cons_ll_short b0 b1 rest ht3 hlen] at h
      exact absurd h (by simp)
    · push_neg at hlen
      obtain ⟨x0, x1, tail, rfl⟩ := len2_cons rest (by simp at hlen; omega)
      rw [decodeDuid_cons_ll b0 b1 x0 x1 tail ht3] at h
      simp at h
      obtain ⟨⟨hA, hD⟩, hn⟩ := h
      subst hA
      refine ⟨by simp, ?_⟩
      rw [← hD]
      simp
  by_cases ht4 : b0.val * 256 + b1.val = 4
  · by_cases h16 : rest.length = 16
    · rw [decodeDuid_cons_uuid b0 b1 rest ht4 h16] at h
      simp at h
    · rw [decodeDuid_cons_uuid_bad b0 b1 rest ht4 (by simp; omega)] at h
      exact absurd h (by simp)
  · rw [decodeDuid_cons_unknown b0 b1 rest ht1 ht2 ht3 ht4] at h
    simp at h

theorem dtOverflow_false_of_lt (t : Nat) (h : t < 4294967296) :
    dtOverflow t = false := by
  have h1 : duidEpochSeconds = 63082281600 := by decide
  have h2 : datetimeMaxSeconds = 315537897599 := by decide
  simp [dtOverflow, h1, h2]
  omega

/-! ### Helper lemmas: the input normalizer -/

theorem hex_not_space (c : Nat) (h : isHexCode c = true) : isSpaceCode c = false := by
  simp [isHexCode] at h
  simp [isSpaceCode]
  omega

theorem fromhex_isSome_eq_grammar : (l : List Nat) →
    (fromhexCodes l).isSome = hexGrammar l
  | [] => by simp [fromhexCodes, hexGrammar]
  | c :: rest => by
    rw [fromhexCodes.eq_def, hexGrammar.eq_def]
    by_cases hsp : isSpaceCode c
    · simp [hsp, fromhex_isSome_eq_grammar rest]
    · by_cases hhex : isHexCode c
      · match rest with
        | [] => simp [hsp, hhex]
        | c2 :: rest2 =>
          by_cases h2 : isHexCode c2
          · simp [hsp, hhex, h2, fromhex_isSome_eq_grammar rest2]
          · simp [hsp, hhex, h2]
      · simp [hsp, hhex]

theorem grammar_nospace : (l : List Nat) → (∀ c ∈ l, isSpaceCode c = false) →
    hexGrammar l = (l.all isHexCode && decide (l.length % 2 = 0))
  | [] => by simp [hexGrammar]
  | c :: rest => by
    intro hns
    have hsp : isSpaceCode c = false := hns c (by simp)
    rw [hexGrammar.eq_def]
    by_cases hhex : isHexCode c
    · match rest with
      | [] => simp [hsp, hhex]
      | c2 :: rest2 =>
        by_cases h2 : isHexCode c2
        · have ih := grammar_nospace rest2 (fun x hx => hns x (by simp [hx]))
          simp [hsp, hhex, h2, ih]
          congr 1
          rw [decide_eq_decide]
          omega
        · simp [hsp, hhex, h2]
    · simp [hsp, hhex]

theorem hexDigit_val (c : Nat) (h : isHexCode c = true) :
    hexDigitCode (hexValCode c).val = lowerCode c := by
  simp [isHexCode] at h
  unfold hexValCode hexDigitCode lowerCode
  split_ifs <;> simp_all <;> omega

theorem byteHex_pair (c c2 : Nat) (h : isHexCode c = true) (h2 : isHexCode c2 = true) :
    byteHexCodes (pairByte (hexValCode c) (hexValCode c2)) = [lowerCode c, lowerCode c2] := by
  have ha := (hexValCode c).isLt
  have hb := (hexValCode c2).isLt
  have e : (pairByte (hexValCode c) (hexValCode c2)).val
      = (hexValCode c).val * 16 + (hexValCode c2).val := rfl
  have hdiv : ((hexValCode c).val * 16 + (hexValCode c2).val) / 16 = (hexValCode c).val := by
    omega
  have hmod : ((hexValCode c).val * 16 + (hexValCode c2).val) % 16 = (hexValCode c2).val := by
    omega
  simp [byteHexCodes, e, hdiv, hmod, hexDigit_val c h, hexDigit_val c2 h2]

theorem fromhex_roundtrip : (l : List Nat) → (∀ c ∈ l, isHexCode c = true) →
    l.length % 2 = 0 →
    (fromhexCodes l).map bytesHexCodes = some (l.map lowerCode)
  | [] => by simp [fromhexCodes, bytesHexCodes]
  | [c] => by
    intro hhex hpar
    simp at hpar
  | c :: c2 :: rest => by
    intro hhex hpar
    have h1 : isHexCode c = true := hhex c (by simp)
    have h2 : isHexCode c2 = true := hhex c2 (by simp)
    have ih := fromhex_roundtrip rest (fun x hx => hhex x (by simp [hx]))
      (by simp at hpar; omega)
    rw [fromhexCodes.eq_def]
    simp [hex_not_space c h1, h1, h2]
    rcases hfr : fromhexCodes rest with _ | bs
    · rw [hfr] at ih
      simp at ih
    · rw [hfr] at ih
      simp at ih
      simp [bytesHexCodes, byteHex_pair c c2 h1 h2]
      simpa [bytesHexCodes] using ih

/-! ### The claims -/

/-- C1 (counterexample): decoding the 6-byte DUID-LL `0003 0002 0011`
succeeds with hardware-type 2 (not Ethernet), and its link-layer address is
still rendered with colon separators (`00:11 (Hex)`), refuting the claim
that the non-standard case is a plain hex string with no colon
separators. -/
theorem claim_C1_counterexample :
    decodeDuid [0, 3, 0, 2, 0x00, 0x11] = .ok (.ll 2 (codes "00:11 (Hex)"), 6) ∧
    58 ∈ codes "00:11 (Hex)" :=
  ⟨rfl, by decide⟩

/-- C1 (amended): for every LLT or LL decode that succeeds, the link-layer
address is rendered as colon-separated hex pairs in every case; when
hardware-type = 1 and the address length is exactly 6 the rendering is
bare, and otherwise the same colon-separated rendering is tagged with
" (Hex)" (the non-standard format marker). -/
theorem claim_C1_amended (bs : List Byte) :
    (∀ hw tv ts lla c, decodeDuid bs = .ok (.llt hw tv ts lla, c) →
      lla = joinColon (chunk2 (bytesHexCodes (bs.drop 8))) ++
        (if hw = 1 ∧ bs.length - 8 = 6 then [] else codes " (Hex)")) ∧
    (∀ hw lla c, decodeDuid bs = .ok (.ll hw lla, c) →
      lla = joinColon (chunk2 (bytesHexCodes (bs.drop 4))) ++
        (if hw = 1 ∧ bs.length - 4 = 6 then [] else codes " (Hex)")) := by
  constructor
  · intro hw tv ts lla c h
    obtain ⟨-, -, -, hl⟩ := decodeDuid_llt_inv bs hw tv ts lla c h
    rw [hl]
    simp only [renderLla]
    split_ifs <;> simp
  · intro hw lla c h
    obtain ⟨-, hl⟩ := decodeDuid_ll_inv bs hw lla c h
    rw [hl]
    simp only [renderLla]
    split_ifs <;> simp

/-- C1 (witness): the amended rendering rule applied to the successful
decode of the DUID-LL `0003 0001 aabbccddeeff`. -/
theorem claim_C1_witness :
    codes "aa:bb:cc:dd:ee:ff" =
      joinColon (chunk2 (bytesHexCodes
        (([0, 3, 0, 1, 0xAA, 0xBB, 0xCC, 0xDD, 0xEE, 0xFF] : List Byte).drop 4))) ++
      (if (1 : Nat) = 1 ∧
          ([0, 3, 0, 1, 0xAA, 0xBB, 0xCC, 0xDD, 0xEE, 0xFF] : List Byte).length - 4 = 6
       then [] else codes " (Hex)") :=
  (claim_C1_amended [0, 3, 0, 1, 0xAA, 0xBB, 0xCC, 0xDD, 0xEE, 0xFF]).2
    1 (codes "aa:bb:cc:dd:ee:ff") 10 (by rfl)

/-- C2 (counterexample): the input `"00 01"` contains a character (the
space) outside `[0-9a-fA-F]` after colon removal, yet the normalizer
succeeds and produces the bytes `00 01`, refuting the claimed
"fails if and only if" condition. -/
theorem claim_C2_counterexample :
    hexToBytes (codes "00 01") = some [0, 1] ∧
    (stripColons (codes "00 01")).all isHexCode = false :=
  ⟨by decide, by decide⟩

/-- C2 (amended): after colon removal, the normalizer succeeds if and only
if the string is a sequence of two-hex-digit pairs optionally separated by
ASCII whitespace (`bytes.fromhex`'s grammar); in particular, for strings
containing no ASCII whitespace it fails exactly when some character is
outside `[0-9a-fA-F]` or the length is odd, as the original claim said. -/
theorem claim_C2_amended (s : List Nat) :
    ((hexToBytes s).isSome = hexGrammar (stripColons s)) ∧
    ((∀ c ∈ stripColons s, isSpaceCode c = false) →
      ((hexToBytes s).isSome ↔
        ((stripColons s).all isHexCode = true ∧ (stripColons s).length % 2 = 0))) := by
  constructor
  · exact fromhex_isSome_eq_grammar (stripColons s)
  · intro hns
    rw [hexToBytes, fromhex_isSome_eq_grammar, grammar_nospace _ hns]
    simp

/-- C2 (witness): the amended failure condition instantiated at the
whitespace-free input `"00:01"`. -/
theorem claim_C2_witness :
    (hexToBytes (codes "00:01")).isSome ↔
      ((stripColons (codes "00:01")).all isHexCode = true ∧
        (stripColons (codes "00:01")).length % 2 = 0) :=
  (claim_C2_amended (codes "00:01")).2 (by decide)

/-- C3: for every byte sequence whose first two bytes read as the
big-endian discriminant 4, decoding succeeds if and only if the total
length is exactly 18; on success the result is the canonical hyphenated
UUID rendering of the 16 payload bytes, and on any other length the
decoder fails with the exact-length-mismatch error carrying expected 18
and the actual length. -/
theorem claim_C3 (b0 b1 : Byte) (rest : List Byte)
    (ht : b0.val * 256 + b1.val = 4) :
    ((∃ r c, decodeDuid (b0 :: b1 :: rest) = .ok (r, c)) ↔
      (b0 :: b1 :: rest).length = 18) ∧
    ((b0 :: b1 :: rest).length = 18 →
      decodeDuid (b0 :: b1 :: rest) = .ok (.duidUuid (uuidRender rest), 18)) ∧
    ((b0 :: b1 :: rest).length ≠ 18 →
      decodeDuid (b0 :: b1 :: rest) =
        .error (.uuidLenMismatch 18 (b0 :: b1 :: rest).length)) := by
  refine ⟨⟨?_, ?_⟩, ?_, ?_⟩
  · rintro ⟨r, c, hok⟩
    by_cases h18 : (b0 :: b1 :: rest).length = 18
    · exact h18
    · rw [decodeDuid_cons_uuid_bad b0 b1 rest ht h18] at hok
      exact absurd hok (by simp)
  · intro h18
    exact ⟨_, _, decodeDuid_cons_uuid b0 b1 rest ht (by simp at h18; omega)⟩
  · intro h18
    exact decodeDuid_cons_uuid b0 b1 rest ht (by simp at h18; omega)
  · intro h18
    exact decodeDuid_cons_uuid_bad b0 b1 rest ht h18

/-- C3 (witness): the 18-byte input `0004` followed by payload
`000102030405060708090a0b0c0d0e0f` decodes to the canonical UUID string,
by the exact-length theorem. -/
theorem claim_C3_witness :
    decodeDuid [0, 4, 0, 1, 2, 3, 4, 5, 6, 7, 8, 9, 10, 11, 12, 13, 14, 15] =
      .ok (.duidUuid (codes "00010203-0405-0607-0809-0a0b0c0d0e0f"), 18) :=
  (claim_C3 0 4 [0, 1, 2, 3, 4, 5, 6, 7, 8, 9, 10, 11, 12, 13, 14, 15]
    (by decide)).2.1 (by decide)

/-- C4: every byte sequence of length 0 or 1 fails with the too-short
error carrying the actual length, before any variant dispatch. -/
theorem claim_C4 (bs : List Byte) (h : bs.length < 2) :
    decodeDuid bs = .error (.tooShort bs.length) :=
  decodeDuid_too_short bs h

/-- C4 (witness): the single-byte input fails with the too-short error. -/
theorem claim_C4_witness :
    decodeDuid [(0 : Byte)] = .error (.tooShort 1) :=
  claim_C4 [0] (by decide)

/-- C5: decoding the 14-byte input `0001 0001 00000000 001122334455`
yields DUID type 1 (LLT) with hardware-type 1, time-offset 0, the
timestamp 2000-01-01T00:00:00Z, and the link-layer address rendered
as `00:11:22:33:44:55`, with all 14 bytes consumed. -/
theorem claim_C5 :
    decodeDuid [0, 1, 0, 1, 0, 0, 0, 0, 0x00, 0x11, 0x22, 0x33, 0x44, 0x55] =
      .ok (.llt 1 0 (some (dateTimeSeconds 2000 1 1 0 0 0))
        (codes "00:11:22:33:44:55"), 14) := by
  rfl

/-- C6: every byte sequence of length ≥ 2 whose discriminant is not 1, 2,
3 or 4 decodes successfully to the unknown-type record, preserving all
bytes after the discriminant unmodified, and consuming the whole input. -/
theorem claim_C6 (b0 b1 : Byte) (rest : List Byte)
    (h1 : b0.val * 256 + b1.val ≠ 1) (h2 : b0.val * 256 + b1.val ≠ 2)
    (h3 : b0.val * 256 + b1.val ≠ 3) (h4 : b0.val * 256 + b1.val ≠ 4) :
    decodeDuid (b0 :: b1 :: rest) =
      .ok (.unknownType (b0.val * 256 + b1.val) rest, (b0 :: b1 :: rest).length) := by
  rw [decodeDuid_cons_unknown b0 b1 rest h1 h2 h3 h4]
  simp
  omega

/-- C6 (witness): discriminant 9999 (`0x270F`) with one trailing byte
decodes to the unknown-type record keeping that byte. -/
theorem claim_C6_witness :
    decodeDuid [0x27, 0x0F, 0xAB] = .ok (.unknownType 9999 [0xAB], 3) :=
  claim_C6 0x27 0x0F [0xAB] (by decide) (by decide) (by decide) (by decide)

/-- C7: for every hex string (hex digits with optional colon separators)
whose colon-stripped form has even length of at least 4 hex characters,
converting to bytes and rendering back to hex returns the colon-stripped,
case-normalized input: the normalizer round-trips. -/
theorem claim_C7 (s : List Nat)
    (hvalid : ∀ c ∈ s, isHexCode c = true ∨ c = 58)
    (heven : (stripColons s).length % 2 = 0)
    (hmin : 4 ≤ (stripColons s).length) :
    (hexToBytes s).map bytesHexCodes = some ((stripColons s).map lowerCode) := by
  rw [hexToBytes]
  apply fromhex_roundtrip _ _ heven
  intro c hc
  rw [stripColons] at hc
  simp [List.mem_filter] at hc
  rcases hvalid c hc.1 with h | h
  · exact h
  · exact absurd h hc.2

/-- C7 (witness): the round-trip at the input `"0A:bc"`, whose
case-normalized colon-stripped form is `0abc`. -/
theorem claim_C7_witness :
    (hexToBytes (codes "0A:bc")).map bytesHexCodes =
      some ((stripColons (codes "0A:bc")).map lowerCode) :=
  claim_C7 (codes "0A:bc") (by decide) (by decide) (by decide)

/-- C8: every successful decode consumes exactly the whole input, so no
bytes remain after the final stream position and the script's trailing
data warning never fires. -/
theorem claim_C8 (bs : List Byte) (r : DuidRecord) (c : Nat)
    (h : decodeDuid bs = .ok (r, c)) :
    c = bs.length ∧ bs.drop c = [] := by
  have hc := decodeDuid_ok_length bs r c h
  exact ⟨hc, by rw [hc]; simp⟩

/-- C8 (witness): the unknown-type decode of `0009 09` consumed all three
bytes, leaving nothing. -/
theorem claim_C8_witness :
    (3 : Nat) = ([0, 9, 9] : List Byte).length ∧
    ([0, 9, 9] : List Byte).drop 3 = [] :=
  claim_C8 [0, 9, 9] (.unknownType 9 [9]) 3 (by rfl)

theorem decodeDuid_no_negLen (bs : List Byte) :
    decodeDuid bs ≠ .error .lltNegLen ∧
    decodeDuid bs ≠ .error .enNegLen ∧
    decodeDuid bs ≠ .error .llNegLen := by
  by_cases hshort : bs.length < 2
  · rw [decodeDuid_too_short bs hshort]
    refine ⟨by simp, by simp, by simp⟩
  push_neg at hshort
  obtain ⟨b0, b1, rest, rfl⟩ := len2_cons bs hshort
  by_cases ht1 : b0.val * 256 + b1.val = 1
  · by_cases hlen : (b0 :: b1 :: rest).length < 8
    · rw [decodeDuid_cons_llt_short b0 b1 rest ht1 hlen]
      refine ⟨by simp, by simp, by simp⟩
    · push_neg at hlen
      obtain ⟨x0, x1, x2, x3, x4, x5, tail, rfl⟩ := len6_cons rest (by simp at hlen; omega)
      rw [decodeDuid_cons_llt b0 b1 x0 x1 x2 x3 x4 x5 tail ht1]
      refine ⟨by simp, by simp, by simp⟩
  by_cases ht2 : b0.val * 256 + b1.val = 2
  · by_cases hlen : (b0 :: b1 :: rest).length < 6
    · rw [decodeDuid_cons_en_short b0 b1 rest ht2 hlen]
      refine ⟨by simp, by simp, by simp⟩
    · push_neg at hlen
      obtain ⟨x0, x1, x2, x3, tail, rfl⟩ := len4_cons rest (by simp at hlen; omega)
      rw [decodeDuid_cons_en b0 b1 x0 x1 x2 x3 tail ht2]
      refine ⟨by simp, by simp, by simp⟩
  by_cases ht3 : b0.val * 256 + b1.val = 3
  · by_cases hlen : (b0 :: b1 :: rest).length < 4
    · rw [decodeDuid_cons_ll_short b0 b1 rest ht3 hlen]
      refine ⟨by simp, by simp, by simp⟩
    · push_neg at hlen
      obtain ⟨x0, x1, tail, rfl⟩ := len2_cons rest (by simp at hlen; omega)
      rw [decodeDuid_cons_ll b0 b1 x0 x1 tail ht3]
      refine ⟨by simp, by simp, by simp⟩
  by_cases ht4 : b0.val * 256 + b1.val = 4
  · by_cases h16 : rest.length = 16
    · rw [decodeDuid_cons_uuid b0 b1 rest ht4 h16]
      refine ⟨by simp, by simp, by simp⟩
    · rw [decodeDuid_cons_uuid_bad b0 b1 rest ht4 (by simp; omega)]
      refine ⟨by simp, by simp, by simp⟩
  · rw [decodeDuid_cons_unknown b0 b1 rest ht1 ht2 ht3 ht4]
    refine ⟨by simp, by simp, by simp⟩

/-- C9: for every input, the decoder never returns one of the defensive
negative-trailing-length errors of the LLT, EN, and LL branches: the
minimum-length guards performed first make the trailing-field length
non-negative, so those error branches are unreachable. -/
theorem claim_C9 (bs : List Byte) : isNegLenError (decodeDuid bs) = false := by
  have hno := decodeDuid_no_negLen bs
  rcases hd : decodeDuid bs with e | v
  · rw [hd] at hno
    rcases e <;> simp [isNegLenError] <;> simp_all
  · simp [isNegLenError]

/-- C10: every 32-bit time-offset stays within the representable
`datetime` range when added to the 2000-01-01 epoch, so the LLT
timestamp-overflow warning branch is unreachable and every successfully
decoded LLT record carries the concrete timestamp epoch + offset. -/
theorem claim_C10 :
    (∀ t : Nat, t < 4294967296 → dtOverflow t = false) ∧
    (∀ (bs : List Byte) (hw tv : Nat) (ts : Option Nat) (lla : List Nat) (c : Nat),
      decodeDuid bs = .ok (.llt hw tv ts lla, c) →
      ts = some (duidEpochSeconds + tv)) := by
  refine ⟨dtOverflow_false_of_lt, ?_⟩
  intro bs hw tv ts lla c h
  obtain ⟨-, htv, hts, -⟩ := decodeDuid_llt_inv bs hw tv ts lla c h
  rw [hts]
  simp [dtOverflow_false_of_lt tv htv]

/-- C10 (witness): the extreme offset `2^32 − 1` does not overflow, and
the decode of `0001 0001 00000005` (time offset 5, empty address) carries
the concrete timestamp epoch + 5. -/
theorem claim_C10_witness :
    dtOverflow 4294967295 = false ∧
    (some (duidEpochSeconds + 5) : Option Nat) = some (duidEpochSeconds + 5) :=
  ⟨claim_C10.1 4294967295 (by decide),
   claim_C10.2 [0, 1, 0, 1, 0, 0, 0, 5] 1 5 (some (duidEpochSeconds + 5))
     (codes " (Hex)") 8 (by rfl)⟩

end DuidDec
